import Mathlib

/-!
Verification of the real-time collaboration relay and two UI widgets of the
Architectural-Design repository, as a shallow embedding in Lean.

The server's whole real-time layer is the three socket.io handlers registered
in `io.on('connection', ...)`:

  socket.on('join-project', (projectId) => { socket.join(projectId); ... });
  socket.on('design-update', (data) => {
    socket.to(data.projectId).emit('design-update', data);
  });
  socket.on('disconnect', () => { console.log(...); });

We embed this together with the socket.io room semantics the handlers rely on:
`socket.join(r)` adds the socket to room `r` (idempotent, and it does NOT leave
any other room); `socket.to(r).emit(ev, m)` delivers `(ev, m)` to every socket
currently in room `r` except the sender; on disconnect the library removes the
socket from every room it is in (the registered handler itself only logs).
Console logging is not modelled.  Sockets also sit in a private room named by
their own id; no client ever targets such a room in the scenarios of interest,
so those implicit memberships are omitted.

The two widgets are `Simple3DViewer` (zoom state) and `DrawingCanvas` (undo).
-/

namespace ArchDesign

/-- A JSON-ish scalar, enough to model socket message fields. -/
inductive JVal where
  | str : String → JVal
  | num : Nat → JVal
deriving DecidableEq

/-- A socket message body: a JS object, modelled as a field list. -/
abbrev JObj := List (String × JVal)

/-- JS property read `o.k`: the value of the first field named `k`, if any
(`none` models `undefined`). -/
def jLookup (k : String) : JObj → Option JVal
  | [] => none
  | (k₁, v) :: rest => if k₁ = k then some v else jLookup k rest

/-- Server-side room state: which socket is in which room.  socket.io keeps a
set of rooms per socket; we keep the pairs in join order.  Rooms are keyed by
whatever value the client sent as the project identifier. -/
structure ServerState where
  memberships : List (String × JVal)
deriving DecidableEq

/-- The sockets currently in room `pid`, in join order. -/
def roomMembers (st : ServerState) (pid : JVal) : List String :=
  (st.memberships.filter (fun p => p.2 = pid)).map (fun p => p.1)

/-- One message pushed to one client: target socket id, event name, body. -/
structure Emission where
  target : String
  event : String
  body : JObj
deriving DecidableEq

/-- Inbound transport events, each tagged with the socket id it arrives on. -/
inductive ClientEv where
  | joinProject (sid : String) (projectId : JVal)
  | designUpdate (sid : String) (data : JObj)
  | disconnect (sid : String)

/-- Messages pushed by the `design-update` handler:
`socket.to(data.projectId).emit('design-update', data)` — forward `data`,
unchanged, to every socket in the room named by the sender-supplied
`data.projectId`, except the sender.  No membership check on the sender, no
stamping, no error path.  (If `data` has no `projectId` field the broadcast
targets the `undefined` room, which no socket has joined in this model, so
nothing is delivered.) -/
def designUpdateOut (st : ServerState) (s : String) (data : JObj) :
    List Emission :=
  match jLookup "projectId" data with
  | some pid =>
      ((roomMembers st pid).filter (fun t => t ≠ s)).map
        (fun t => ⟨t, "design-update", data⟩)
  | none => []

/-- One event-loop step of the server: the three registered handlers plus the
socket.io room bookkeeping they rely on.
* `join-project`: `socket.join(projectId)` — add the membership if absent.
* `design-update`: fan out `designUpdateOut`; server state is untouched.
* `disconnect`: the handler only logs; socket.io removes the socket from all
  its rooms in the same step. -/
def step (st : ServerState) : ClientEv → ServerState × List Emission
  | .joinProject s pid =>
      (⟨if (s, pid) ∈ st.memberships then st.memberships
        else st.memberships ++ [(s, pid)]⟩, [])
  | .designUpdate s data => (st, designUpdateOut st s data)
  | .disconnect s =>
      ⟨⟨st.memberships.filter (fun p => p.1 ≠ s)⟩, []⟩

/-- Run a trace of inbound events from an empty server, collecting every
message pushed to clients along the way. -/
def run (evs : List ClientEv) : ServerState × List Emission :=
  evs.foldl (fun acc ev =>
    ((step acc.1 ev).1, acc.2 ++ (step acc.1 ev).2)) (⟨[]⟩, [])

/-!
`Simple3DViewer` zoom state.  The component keeps `zoom` in a `useState(1)`
hook; the only writers are
* `handleWheel`: `if (readOnly) return;`
  `const delta = e.deltaY > 0 ? 0.9 : 1.1;`
  `setZoom(prev => Math.max(0.1, Math.min(3, prev * delta)));`
* `resetView`: `setZoom(1)` (it also resets rotation, not modelled here).
`handleMouseDown/Move/Up` and `changeViewMode` touch only rotation/drag state.
JS numbers are idealised as rationals. -/

/-- The user interactions of the viewer that can reach a zoom writer. -/
inductive ViewerEv where
  | wheel (readOnly : Bool) (deltaY : ℤ)
  | resetClick

/-- The wheel handler's effect on `zoom`. -/
def handleWheel (readOnly : Bool) (deltaY : ℤ) (zoom : ℚ) : ℚ :=
  if readOnly then zoom
  else max (1/10) (min 3 (zoom * (if 0 < deltaY then 9/10 else 11/10)))

/-- `resetView` sets zoom back to 1. -/
def resetViewZoom : ℚ := 1

/-- Effect of one viewer interaction on the zoom state. -/
def zoomStep (zoom : ℚ) : ViewerEv → ℚ
  | .wheel ro dy => handleWheel ro dy zoom
  | .resetClick => resetViewZoom

/-- Zoom after a sequence of interactions, starting from `useState(1)`. -/
def zoomAfter (evs : List ViewerEv) : ℚ :=
  evs.foldl zoomStep 1

/-!
`DrawingCanvas.undo`:

    if (fabricCanvasRef.current && !readOnly) {
      const objects = fabricCanvasRef.current.getObjects();
      if (objects.length > 0) {
        fabricCanvasRef.current.remove(objects[objects.length - 1]);
        fabricCanvasRef.current.renderAll();
      }
    }

`getObjects` lists the canvas objects in insertion order; `remove` deletes the
given object reference (each reference occurs once), so removing
`objects[objects.length - 1]` drops the last entry of the list. -/

/-- The canvas object list after one `undo` click. -/
def undo {α : Type} (readOnly : Bool) (objects : List α) : List α :=
  if readOnly then objects
  else if 0 < objects.length then objects.dropLast
  else objects

end ArchDesign

namespace ArchDesign

/-- Helper: the fan-out of the `design-update` handler once the sender's
`data.projectId` field is known. -/
theorem designUpdateOut_eq (st : ServerState) (s : String) (data : JObj)
    (pid : JVal) (hpid : jLookup "projectId" data = some pid) :
    designUpdateOut st s data =
      ((roomMembers st pid).filter (fun t => t ≠ s)).map
        (fun t => ⟨t, "design-update", data⟩) := by
  unfold designUpdateOut
  rw [hpid]

/-- Helper: every message the `design-update` handler pushes carries the
sender's object as its body. -/
theorem mem_designUpdateOut_body (st : ServerState) (s : String) (data : JObj)
    (e : Emission) (h : e ∈ designUpdateOut st s data) : e.body = data := by
  cases hpid : jLookup "projectId" data with
  | none =>
      unfold designUpdateOut at h
      rw [hpid] at h
      simp at h
  | some pid =>
      rw [designUpdateOut_eq st s data pid hpid] at h
      simp only [List.mem_map] at h
      obtain ⟨t, _, ht⟩ := h
      rw [← ht]

/-- Helper: a socket is targeted by the fan-out exactly when it is in the room
named by the sender-supplied `projectId` and is not the sender. -/
theorem target_mem_designUpdateOut (st : ServerState) (s : String)
    (data : JObj) (pid : JVal) (t : String)
    (hpid : jLookup "projectId" data = some pid) :
    (∃ e ∈ designUpdateOut st s data, e.target = t) ↔
      (t ∈ roomMembers st pid ∧ t ≠ s) := by
  rw [designUpdateOut_eq st s data pid hpid]
  constructor
  · rintro ⟨e, he, rfl⟩
    simp only [List.mem_map, List.mem_filter] at he
    obtain ⟨a, ⟨hmem, hne⟩, rfl⟩ := he
    exact ⟨hmem, of_decide_eq_true hne⟩
  · rintro ⟨hmem, hne⟩
    exact ⟨⟨t, "design-update", data⟩,
      List.mem_map_of_mem _ (List.mem_filter.mpr ⟨hmem, decide_eq_true hne⟩),
      rfl⟩

/-- Counterexample to claim C1: the very first design-update relayed in room
"P1" (members c1 and c2, sender c1) is delivered to c2 as the sender's object
unchanged, which has no `sequence` field at all — so it is not stamped with
the assigned sequence 1 the claim requires. -/
theorem relay_sequence_stamping_refuted :
    (run [.joinProject "c1" (.str "P1"), .joinProject "c2" (.str "P1"),
          .designUpdate "c1"
            [("projectId", .str "P1"), ("payload", .str "X")]]).2 =
      [⟨"c2", "design-update",
         [("projectId", JVal.str "P1"), ("payload", JVal.str "X")]⟩] ∧
    jLookup "sequence"
      [("projectId", JVal.str "P1"), ("payload", JVal.str "X")] = none := by
  decide

/-- Claim C1 (amended): the relay assigns no sequence numbers: a relayed
design-update carries exactly the `sequence` field (if any) the sender itself
supplied, and the handler leaves the server state — which holds no per-room
counter — unchanged. -/
theorem relay_stamps_no_sequence (st : ServerState) (s : String) (data : JObj)
    (e : Emission) (h : e ∈ (step st (.designUpdate s data)).2) :
    jLookup "sequence" e.body = jLookup "sequence" data ∧
    (step st (.designUpdate s data)).1 = st :=
  ⟨by rw [mem_designUpdateOut_body st s data e h], rfl⟩

/-- Witness for `relay_stamps_no_sequence` at a concrete room and update. -/
theorem relay_stamps_no_sequence_witness :
    ((⟨"b2", "design-update", [("projectId", JVal.str "Q1")]⟩ : Emission) ∈
      (step ⟨[("b2", JVal.str "Q1")]⟩
        (.designUpdate "b1" [("projectId", JVal.str "Q1")])).2) ∧
    (jLookup "sequence"
        (⟨"b2", "design-update", [("projectId", JVal.str "Q1")]⟩ : Emission).body =
      jLookup "sequence" [("projectId", JVal.str "Q1")] ∧
    (step ⟨[("b2", JVal.str "Q1")]⟩
      (.designUpdate "b1" [("projectId", JVal.str "Q1")])).1 =
        ⟨[("b2", JVal.str "Q1")]⟩) :=
  ⟨by decide, relay_stamps_no_sequence _ _ _ _ (by decide)⟩

/-- Counterexample to claim C2: c1 submits an update to room "P2" without
having joined it, yet the update is broadcast to member c2 — and that forward
is the only emission of the whole trace, so c1 receives no `NotInRoom` (nor
any) message. -/
theorem notInRoom_rejection_refuted :
    (run [.joinProject "c2" (.str "P2"),
          .designUpdate "c1"
            [("projectId", .str "P2"), ("payload", .str "X")]]).2 =
      [⟨"c2", "design-update",
         [("projectId", JVal.str "P2"), ("payload", JVal.str "X")]⟩] := by
  decide

/-- Claim C2 (amended): the relay performs no membership check and has no
error path: an update from a sender outside the target room is broadcast to
every member of that room, and no emission targets the sender. -/
theorem nonmember_update_still_broadcast (st : ServerState) (s : String)
    (data : JObj) (pid : JVal)
    (hpid : jLookup "projectId" data = some pid)
    (hout : s ∉ roomMembers st pid) :
    (step st (.designUpdate s data)).2 =
      (roomMembers st pid).map (fun t => ⟨t, "design-update", data⟩) ∧
    (∀ e ∈ (step st (.designUpdate s data)).2, e.target ≠ s) := by
  have hf : (roomMembers st pid).filter (fun t => t ≠ s) = roomMembers st pid :=
    List.filter_eq_self.mpr
      (fun a ha => decide_eq_true (fun hEq => hout (hEq ▸ ha)))
  constructor
  · show designUpdateOut st s data = _
    rw [designUpdateOut_eq st s data pid hpid, hf]
  · intro e he
    have he' : e ∈ designUpdateOut st s data := he
    rw [designUpdateOut_eq st s data pid hpid, hf] at he'
    simp only [List.mem_map] at he'
    obtain ⟨a, ha, rfl⟩ := he'
    exact fun hEq => hout (hEq ▸ ha)

/-- Witness for `nonmember_update_still_broadcast`: b1 is not in room "Q2". -/
theorem nonmember_update_still_broadcast_witness :
    (jLookup "projectId" [("projectId", JVal.str "Q2")] = some (JVal.str "Q2") ∧
     "b1" ∉ roomMembers ⟨[("b2", JVal.str "Q2")]⟩ (JVal.str "Q2")) ∧
    ((step ⟨[("b2", JVal.str "Q2")]⟩
        (.designUpdate "b1" [("projectId", JVal.str "Q2")])).2 =
      (roomMembers ⟨[("b2", JVal.str "Q2")]⟩ (JVal.str "Q2")).map
        (fun t => ⟨t, "design-update", [("projectId", JVal.str "Q2")]⟩) ∧
    (∀ e ∈ (step ⟨[("b2", JVal.str "Q2")]⟩
        (.designUpdate "b1" [("projectId", JVal.str "Q2")])).2,
      e.target ≠ "b1")) :=
  ⟨⟨by decide, by decide⟩,
   nonmember_update_still_broadcast _ _ _ _ (by decide) (by decide)⟩

/-- Counterexample to claim C3: c1 joins "P1" and then "P2"; afterwards it is
a member of both rooms at once, so joining did not remove the old
membership. -/
theorem single_room_invariant_refuted :
    ("c1", JVal.str "P1") ∈
      (run [.joinProject "c1" (.str "P1"),
            .joinProject "c1" (.str "P2")]).1.memberships ∧
    ("c1", JVal.str "P2") ∈
      (run [.joinProject "c1" (.str "P1"),
            .joinProject "c1" (.str "P2")]).1.memberships := by
  decide

/-- Claim C3 (amended): `socket.join` only adds: joining room B while a member
of room A keeps the membership of A, so a connection can belong to two rooms
simultaneously. -/
theorem join_keeps_prior_membership (st : ServerState) (s : String)
    (rA rB : JVal) (h : (s, rA) ∈ st.memberships) :
    (s, rA) ∈ (step st (.joinProject s rB)).1.memberships ∧
    (s, rB) ∈ (step st (.joinProject s rB)).1.memberships := by
  have hmem : (step st (.joinProject s rB)).1.memberships =
      (if (s, rB) ∈ st.memberships then st.memberships
       else st.memberships ++ [(s, rB)]) := rfl
  rw [hmem]
  split
  next hB => exact ⟨h, hB⟩
  next =>
    exact ⟨List.mem_append.mpr (Or.inl h),
           List.mem_append.mpr (Or.inr (List.mem_singleton.mpr rfl))⟩

/-- Witness for `join_keeps_prior_membership` at a concrete state. -/
theorem join_keeps_prior_membership_witness :
    ("b1", JVal.str "QA") ∈
      (ServerState.mk [("b1", JVal.str "QA")]).memberships ∧
    (("b1", JVal.str "QA") ∈
      (step ⟨[("b1", JVal.str "QA")]⟩
        (.joinProject "b1" (JVal.str "QB"))).1.memberships ∧
    ("b1", JVal.str "QB") ∈
      (step ⟨[("b1", JVal.str "QA")]⟩
        (.joinProject "b1" (JVal.str "QB"))).1.memberships) :=
  ⟨by decide, join_keeps_prior_membership _ _ _ _ (by decide)⟩

/-- Claim C4 (confirmed): a design-update broadcast into a room (here with at
least two members) is delivered to every member of that room other than the
sender, and no emission of the handler ever targets the sender, so the sender
never receives its own update back. -/
theorem broadcast_excludes_sender_only (st : ServerState) (s : String)
    (data : JObj) (pid : JVal)
    (hpid : jLookup "projectId" data = some pid)
    (_htwo : 2 ≤ (roomMembers st pid).length) :
    (∀ t ∈ roomMembers st pid, t ≠ s →
      (⟨t, "design-update", data⟩ : Emission) ∈
        (step st (.designUpdate s data)).2) ∧
    (∀ e ∈ (step st (.designUpdate s data)).2, e.target ≠ s) := by
  constructor
  · intro t hmem hne
    show _ ∈ designUpdateOut st s data
    rw [designUpdateOut_eq st s data pid hpid]
    exact List.mem_map_of_mem _
      (List.mem_filter.mpr ⟨hmem, decide_eq_true hne⟩)
  · intro e he
    have he' : e ∈ designUpdateOut st s data := he
    rw [designUpdateOut_eq st s data pid hpid] at he'
    simp only [List.mem_map, List.mem_filter] at he'
    obtain ⟨a, ⟨_, hne⟩, rfl⟩ := he'
    exact of_decide_eq_true hne

/-- Witness for `broadcast_excludes_sender_only`: room "Q1" with members b1
and b2, sender b1. -/
theorem broadcast_excludes_sender_only_witness :
    (jLookup "projectId" [("projectId", JVal.str "Q1"), ("payload", JVal.num 7)]
        = some (JVal.str "Q1") ∧
     2 ≤ (roomMembers ⟨[("b1", JVal.str "Q1"), ("b2", JVal.str "Q1")]⟩
            (JVal.str "Q1")).length) ∧
    ((∀ t ∈ roomMembers ⟨[("b1", JVal.str "Q1"), ("b2", JVal.str "Q1")]⟩
          (JVal.str "Q1"), t ≠ "b1" →
        (⟨t, "design-update",
           [("projectId", JVal.str "Q1"), ("payload", JVal.num 7)]⟩ : Emission) ∈
          (step ⟨[("b1", JVal.str "Q1"), ("b2", JVal.str "Q1")]⟩
            (.designUpdate "b1"
              [("projectId", JVal.str "Q1"), ("payload", JVal.num 7)])).2) ∧
     (∀ e ∈ (step ⟨[("b1", JVal.str "Q1"), ("b2", JVal.str "Q1")]⟩
          (.designUpdate "b1"
            [("projectId", JVal.str "Q1"), ("payload", JVal.num 7)])).2,
        e.target ≠ "b1")) :=
  ⟨⟨by decide, by decide⟩,
   broadcast_excludes_sender_only _ _ _ _ (by decide) (by decide)⟩

/-- Counterexample to claim C5's `lastSequence` clause: room "P1" is emptied
by c1's disconnect and recreated by later joins, as the claim says, but the
first update relayed in the recreated room is delivered with no `sequence`
field at all — there is no per-room counter to reset to 0, so the event is
not stamped with sequence 1. -/
theorem lastSequence_reset_refuted :
    (run [.joinProject "c1" (.str "P1"), .disconnect "c1"]).1.memberships
        = [] ∧
    (run [.joinProject "c1" (.str "P1"), .disconnect "c1",
          .joinProject "c2" (.str "P1"), .joinProject "c3" (.str "P1"),
          .designUpdate "c3"
            [("projectId", .str "P1"), ("payload", .str "Y")]]).2 =
      [⟨"c2", "design-update",
         [("projectId", JVal.str "P1"), ("payload", JVal.str "Y")]⟩] ∧
    jLookup "sequence"
      [("projectId", JVal.str "P1"), ("payload", JVal.str "Y")] = none := by
  decide

/-- Claim C5 (amended): disconnecting removes the connection from every room
within the same processing step, so a room whose only member disconnects is
left with no members (it ceases to exist, and a later join recreates it); the
server keeps no per-room `lastSequence` counter, so nothing is reset on
recreation and the disconnect itself emits nothing. -/
theorem disconnect_purges_membership (st : ServerState) (s : String) :
    (∀ r, roomMembers (step st (.disconnect s)).1 r =
            (roomMembers st r).filter (fun t => t ≠ s)) ∧
    (∀ r, roomMembers st r = [s] →
            roomMembers (step st (.disconnect s)).1 r = []) ∧
    (step st (.disconnect s)).2 = [] := by
  have key : ∀ r, roomMembers (step st (.disconnect s)).1 r =
      (roomMembers st r).filter (fun t => t ≠ s) := by
    intro r
    show ((st.memberships.filter (fun p => p.1 ≠ s)).filter
            (fun p => p.2 = r)).map (fun p => p.1) =
      ((st.memberships.filter (fun p => p.2 = r)).map
          (fun p => p.1)).filter (fun t => t ≠ s)
    induction st.memberships with
    | nil => rfl
    | cons hd tl ih =>
        simp only [List.filter_filter, decide_not] at ih
        by_cases h1 : hd.1 = s <;> by_cases h2 : hd.2 = r <;>
          simp [List.filter_cons, h1, h2, ih]
  refine ⟨key, ?_, rfl⟩
  intro r hr
  rw [key r, hr]
  simp

/-- Witness for `disconnect_purges_membership` at a one-member room. -/
theorem disconnect_purges_membership_witness :
    (∀ r, roomMembers (step ⟨[("b1", JVal.str "Q1")]⟩ (.disconnect "b1")).1 r =
            (roomMembers ⟨[("b1", JVal.str "Q1")]⟩ r).filter
              (fun t => t ≠ "b1")) ∧
    (∀ r, roomMembers (⟨[("b1", JVal.str "Q1")]⟩ : ServerState) r = ["b1"] →
            roomMembers (step ⟨[("b1", JVal.str "Q1")]⟩
              (.disconnect "b1")).1 r = []) ∧
    (step ⟨[("b1", JVal.str "Q1")]⟩ (.disconnect "b1")).2 = [] :=
  disconnect_purges_membership _ _

/-- Counterexample to claim C6: c1 joins "P1", then c2 joins the room that
already has member c1, then c1 disconnects — and across the whole trace the
server pushes no message at all: no member-joined event on join, no
member-left event on disconnect. -/
theorem membership_notifications_refuted :
    (run [.joinProject "c1" (.str "P1"), .joinProject "c2" (.str "P1"),
          .disconnect "c1"]).2 = [] := by
  decide

/-- Claim C6 (amended): the server sends no membership notifications: the
join-project and disconnect handlers emit nothing to anybody; the only
outbound messages are design-update forwards. -/
theorem no_membership_events (st : ServerState) (s : String) (pid : JVal) :
    (step st (.joinProject s pid)).2 = [] ∧
    (step st (.disconnect s)).2 = [] :=
  ⟨rfl, rfl⟩

/-- Claim C7 (confirmed): every relayed design-update delivers to the other
room members exactly the object the sender submitted — the relay never
inspects or modifies the payload. -/
theorem designUpdate_forwards_payload_verbatim (st : ServerState) (s : String)
    (data : JObj) (e : Emission)
    (h : e ∈ (step st (.designUpdate s data)).2) : e.body = data :=
  mem_designUpdateOut_body st s data e h

/-- Witness for `designUpdate_forwards_payload_verbatim` at a concrete
update. -/
theorem designUpdate_forwards_payload_verbatim_witness :
    ((⟨"c2", "design-update",
        [("projectId", JVal.str "P1"), ("payload", JVal.str "X")]⟩ :
          Emission) ∈
      (step ⟨[("c1", JVal.str "P1"), ("c2", JVal.str "P1")]⟩
        (.designUpdate "c1"
          [("projectId", JVal.str "P1"), ("payload", JVal.str "X")])).2) ∧
    (⟨"c2", "design-update",
        [("projectId", JVal.str "P1"), ("payload", JVal.str "X")]⟩ :
          Emission).body =
      [("projectId", JVal.str "P1"), ("payload", JVal.str "X")] :=
  ⟨by decide,
   designUpdate_forwards_payload_verbatim
     ⟨[("c1", JVal.str "P1"), ("c2", JVal.str "P1")]⟩ "c1"
     [("projectId", JVal.str "P1"), ("payload", JVal.str "X")]
     ⟨"c2", "design-update",
       [("projectId", JVal.str "P1"), ("payload", JVal.str "X")]⟩
     (by decide)⟩

/-- Claim C8 (confirmed): the design-update handler emits to the room named
by the message's own `projectId` field: a socket receives the forward exactly
when it is a member of that room and is not the sender — with no condition on
which rooms (if any) the sender has joined. -/
theorem target_room_from_sender_data (st : ServerState) (s : String)
    (data : JObj) (pid : JVal) (t : String)
    (hpid : jLookup "projectId" data = some pid) :
    (∃ e ∈ (step st (.designUpdate s data)).2, e.target = t) ↔
      (t ∈ roomMembers st pid ∧ t ≠ s) :=
  target_mem_designUpdateOut st s data pid t hpid

/-- Witness for `target_room_from_sender_data`: sender b1 is in no room at
all, yet the room "Q9" named in its message determines the delivery. -/
theorem target_room_from_sender_data_witness :
    jLookup "projectId" [("projectId", JVal.str "Q9")]
        = some (JVal.str "Q9") ∧
    ((∃ e ∈ (step ⟨[("b2", JVal.str "Q9")]⟩
        (.designUpdate "b1" [("projectId", JVal.str "Q9")])).2,
          e.target = "b2") ↔
      ("b2" ∈ roomMembers ⟨[("b2", JVal.str "Q9")]⟩ (JVal.str "Q9") ∧
        "b2" ≠ "b1")) :=
  ⟨by decide, target_room_from_sender_data _ _ _ _ _ (by decide)⟩

/-- Helper: one wheel event keeps the zoom inside the clamp interval. -/
theorem handleWheel_bounds (ro : Bool) (dy : ℤ) (z : ℚ)
    (h1 : 1/10 ≤ z) (h2 : z ≤ 3) :
    1/10 ≤ handleWheel ro dy z ∧ handleWheel ro dy z ≤ 3 := by
  unfold handleWheel
  split
  · exact ⟨h1, h2⟩
  · exact ⟨le_max_left _ _, max_le (by norm_num) (min_le_left _ _)⟩

/-- Helper: any single viewer interaction keeps the zoom inside the clamp
interval. -/
theorem zoomStep_bounds (z : ℚ) (ev : ViewerEv)
    (h1 : 1/10 ≤ z) (h2 : z ≤ 3) :
    1/10 ≤ zoomStep z ev ∧ zoomStep z ev ≤ 3 := by
  cases ev with
  | wheel ro dy => exact handleWheel_bounds ro dy z h1 h2
  | resetClick =>
      refine ⟨?_, ?_⟩ <;> norm_num [zoomStep, resetViewZoom]

/-- Claim C9 (confirmed): starting from the initial value 1, no sequence of
viewer interactions (wheel events, which multiply zoom by 0.9 or 1.1 and
clamp, and reset clicks, which restore 1) can drive the zoom outside the
closed interval from 0.1 to 3. -/
theorem zoom_always_clamped (evs : List ViewerEv) :
    1/10 ≤ zoomAfter evs ∧ zoomAfter evs ≤ 3 := by
  have key : ∀ z : ℚ, 1/10 ≤ z → z ≤ 3 →
      1/10 ≤ evs.foldl zoomStep z ∧ evs.foldl zoomStep z ≤ 3 := by
    induction evs with
    | nil => exact fun z h1 h2 => ⟨h1, h2⟩
    | cons ev rest ih =>
        intro z h1 h2
        have hz := zoomStep_bounds z ev h1 h2
        exact ih (zoomStep z ev) hz.1 hz.2
  exact key 1 (by norm_num) (by norm_num)

/-- Claim C10 (confirmed): the canvas `undo` is a no-op on an empty object
list (it never errors), and on a non-empty list it removes exactly the most
recently added object, leaving every other object unchanged. -/
theorem undo_safe_and_removes_last (α : Type) (objs : List α) (x : α) :
    undo false ([] : List α) = [] ∧ undo false (objs ++ [x]) = objs := by
  refine ⟨rfl, ?_⟩
  have hlen : 0 < (objs ++ [x]).length := by simp
  simp [undo, hlen]

end ArchDesign
